import Mathlib

set_option maxRecDepth 8192

/-!
Verification of the lt_quiz command-registry builder core and its database glue.

The development shallowly embeds the Rust sources:
  components/stdx/src/ir.rs          (Property, Builder, CommandBuilder, array_push)
  components/lt_quiz/src/state.rs    (State::questions and its cache)
  components/lt_quiz/src/db/sqlite.rs (Sqlite::find_questions query construction)

External collaborator crates (wca, miette, rusqlite) are modelled only to the
extent the embedded code constructs or inspects their values.
-/

/-! Model of the external wca collaborator: the grammar vocabulary of type
tags, value descriptions, command descriptors, and the executor routine
shape consumed by the dispatcher. -/

namespace wca

/-- Model of the external wca type-tag vocabulary (the Rust enum wca::Type):
a fixed set of opaque enumerated values; the builder never inspects them. -/
inductive Ty where
| string
| path
| number
| bool
deriving DecidableEq

/-- Model of wca::grammar::settings::ValueDescription: hint, type tag and
optionality of one positional argument or named property. -/
structure ValueDescription where
hint : String
kind : Ty
optional : Bool
deriving DecidableEq

/-- Model of wca::Command: the phrase, the ordered positional-argument
descriptions (subjects) and the name-keyed property descriptions.  The Rust
properties field is a HashMap; it is modelled as an association list whose
insert operation replaces an existing binding for the same key. -/
structure Command where
phrase : String
subjects : List ValueDescription
properties : List (String × ValueDescription)

/-- Model of HashMap::insert on the association-list representation of a
command property map: any previous binding of the key is removed and the
new binding is added. -/
def insertProp (props : List (String × ValueDescription)) (name : String)
(vd : ValueDescription) : List (String × ValueDescription) :=
(props.filter fun p => p.1 ≠ name) ++ [(name, vd)]

/-- Opaque stand-in for wca::Args (positional values); the embedded core
never inspects its structure. -/
def Args := List String

/-- Opaque stand-in for wca::Props (property values); the embedded core
never inspects its structure. -/
def Props := List (String × String)

/-- Model of wca::BasicError: an error value carrying one diagnostic string. -/
structure BasicError where
message : String
deriving DecidableEq

/-- Model of wca::BasicError::new. -/
def BasicError.new (message : String) : BasicError := ⟨message⟩

/-- Output of one routine invocation.  Besides the dispatch result it records
how many times the wrapped domain handler was invoked during the call, so
that single-invocation (no-retry) properties are statable. -/
structure RoutineOutput where
handlerInvocations : Nat
result : Except BasicError Unit

/-- Model of wca::Routine: the uniform callable handed to the dispatcher. -/
@[reducible] def Routine := Args → Props → RoutineOutput

/-- Model of wca::CommandsAggregator as far as this core constructs it:
it receives the descriptor list (grammar) and the phrase-keyed routine
list (executor) exactly as handed over by CommandBuilder::build. -/
structure CommandsAggregator where
grammar : List Command
executor : List (String × Routine)

end wca

/-! Model of the external miette collaborator: a domain-error report with a
context chain, and its debug formatting into a single string. -/

namespace miette

/-- Model of a miette::Report: the root failure message together with the
chain of context messages wrapped around it. -/
structure Report where
message : String
context : List String

end miette

/-- Model of the separator-join used by the sources (itertools join and the
miette debug rendering): concatenate the pieces with the separator between
consecutive pieces. -/
def joinSep (sep : String) : List String → String
| [] => ""
| [s] => s
| s :: rest => s ++ sep ++ joinSep sep rest

/-- Model of the debug formatting (the Rust format string applied to a
miette report): the failure message followed by its context chain, rendered
as one string. -/
def miette.formatDebug (r : miette.Report) : String :=
joinSep "; " (r.message :: r.context)

/-! Embedding of components/stdx/src/ir.rs. -/

/-- Embedding of array_push from ir.rs: a fixed-size array of N elements is a
function on Fin N; the result places the N relocated elements in their
original slots 0..N-1 and constructs the new element in slot N. -/
def array_push {T : Type} {N : Nat} (this : Fin N → T) (item : T) :
Fin (N + 1) → T :=
fun i => if h : (i : Nat) < N then this ⟨i, h⟩ else item

/-- Embedding of stdx::ir::Property. -/
structure Property where
name : String
hint : String
tag : wca.Ty

/-- Embedding of stdx::ir::Builder: the handler paired with the command
descriptor under construction.  The Rust handler type parameter F is fixed
to the shape required at append time. -/
structure Builder (T : Type) where
handler : T → wca.Args → wca.Props → Except miette.Report Unit
command : wca.Command

/-- Last index of a character in a character list (the Rust str::rfind on a
char pattern, at character granularity). -/
def lastIdx (c : Char) : List Char → Option Nat
| [] => none
| x :: xs =>
  match lastIdx c xs with
  | some i => some (i + 1)
  | none => if x = c then some 0 else none

/-- Split of a character list on a separator character (the Rust
str::split on a char pattern): adjacent separators and boundary separators
produce empty pieces, and the empty input produces one empty piece. -/
def splitOnChar (c : Char) : List Char → List (List Char)
| [] => [[]]
| x :: xs =>
  match splitOnChar c xs with
  | [] => [[]]
  | g :: gs => if x = c then [] :: g :: gs else (x :: g) :: gs

/-- Join of character-list pieces with a separator character (the itertools
join applied to the pieces of a split). -/
def joinChar (sep : Char) : List (List Char) → List Char
| [] => []
| [g] => g
| g :: gs => g ++ sep :: joinChar sep gs

/-- Embedding of the name derivation inside Builder::new: drop everything up
to and including the last colon if any, split the remainder on underscores
and join the pieces with dots. -/
def deriveName (name : String) : String :=
let cs := name.data
let tail :=
  match lastIdx ':' cs with
  | none => cs
  | some i => cs.drop (i + 1)
String.mk (joinChar '.' (splitOnChar '_' tail))

/-- Embedding of Builder::new.  The Rust code obtains the identifier string
of the handler by reflection (std::any::type_name); the embedding receives
that identifier string as an explicit argument.  The formed command has the
derived phrase and empty subjects and properties. -/
def Builder.new {T : Type} (typeName : String)
(handler : T → wca.Args → wca.Props → Except miette.Report Unit) : Builder T :=
{ handler := handler
  command := { phrase := deriveName typeName, subjects := [], properties := [] } }

/-- Embedding of Builder::arg: push one required positional-argument
description onto the subjects of the command under construction. -/
def Builder.arg {T : Type} (self : Builder T) (hint : String) (tag : wca.Ty) :
Builder T :=
{ self with
  command := { self.command with
    subjects := self.command.subjects ++ [{ hint := hint, kind := tag, optional := false }] } }

/-- Embedding of Builder::properties: insert each given property, keyed by
its name, as an optional value description of the command under
construction. -/
def Builder.properties {T : Type} (self : Builder T) (props : List Property) :
Builder T :=
{ self with
  command := { self.command with
    properties := props.foldl
      (fun m p => wca.insertProp m p.name { hint := p.hint, kind := p.tag, optional := true })
      self.command.properties } }

/-- Embedding of stdx::ir::CommandBuilder: the shared state plus the two
exactly-N-sized parallel collections of command descriptors and
phrase-keyed routines. -/
structure CommandBuilder (T : Type) (N : Nat) where
state : T
commands : Fin N → wca.Command
handlers : Fin N → String × wca.Routine

/-- Embedding of CommandBuilder::with_state: the zero-size builder. -/
def CommandBuilder.with_state {T : Type} (state : T) : CommandBuilder T 0 :=
{ state := state, commands := fun i => i.elim0, handlers := fun i => i.elim0 }

/-- Tally of one domain-handler invocation: evaluating the handler once
yields its result together with the invocation count 1.  This mirrors the
single call site inside the closure built by CommandBuilder::command. -/
def invokeHandler {T : Type}
(handler : T → wca.Args → wca.Props → Except miette.Report Unit)
(state : T) (args : wca.Args) (props : wca.Props) :
Nat × Except miette.Report Unit :=
(1, handler state args props)

/-- Embedding of the closure constructed inside CommandBuilder::command: it
closes over the shared state, invokes the domain handler once, and maps a
domain failure to a BasicError carrying the debug-formatted report. -/
def adaptRoutine {T : Type}
(handler : T → wca.Args → wca.Props → Except miette.Report Unit)
(state : T) : wca.Routine :=
fun args props =>
  let call := invokeHandler handler state args props
  { handlerInvocations := call.1
    result := call.2.mapError fun report => wca.BasicError.new (miette.formatDebug report) }

/-- Embedding of CommandBuilder::command: append the (descriptor, routine)
pair built from the given Builder, growing both parallel arrays by one.
The IntoBuilder conversion of the Rust signature is applied by the caller;
the argument here is the resulting Builder value. -/
def CommandBuilder.command {T : Type} {N : Nat} (self : CommandBuilder T N)
(cb : Builder T) : CommandBuilder T (N + 1) :=
{ state := self.state
  handlers := array_push self.handlers (cb.command.phrase, adaptRoutine cb.handler self.state)
  commands := array_push self.commands cb.command }

/-- Embedding of CommandBuilder::build: hand the descriptor array to the
grammar and the phrase-keyed routine array to the executor of the
aggregator. -/
def CommandBuilder.build {T : Type} {N : Nat} (self : CommandBuilder T N) :
wca.CommandsAggregator :=
{ grammar := List.ofFn self.commands, executor := List.ofFn self.handlers }

/-! Embedding of components/lt_quiz/src/state.rs. -/

/-- Embedding of toml::Question as constructed and consumed by the embedded
code (fields in source order). -/
structure Question where
id : Option Int
description : String
answer : String
distractors : List String
tags : List String
deriving DecidableEq

/-- Database handle as seen by State::questions: the find_questions method
of the Database trait, returning either the question list or a report. -/
structure Db where
find_questions : List String → List String → Except miette.Report (List Question)

/-- Embedding of the shared RawState behind State: the configuration, the
database handle, and the cache cell.  The AnyMap cache only ever holds one
entry of type Vec of Question, so it is an Option; dbCalls instruments how
many times the database has been consulted, so that cache claims about not
consulting the database are statable. -/
structure State where
config : Unit
db : Db
cache : Option (List Question)
dbCalls : Nat

/-- Embedding of State::questions: on a cache hit return the cached list
(ignoring both tag filters); on a miss consult the database, and on success
store the list in the cache before returning it.  Interior mutability of
the cache cell is modelled by returning the updated state. -/
def State.questions (s : State) (has_tags no_tags : List String) :
Except miette.Report (List Question) × State :=
match s.cache with
| some questions => (Except.ok questions, s)
| none =>
  let s' : State := { s with dbCalls := s.dbCalls + 1 }
  match s.db.find_questions has_tags no_tags with
  | Except.ok questions => (Except.ok questions, { s' with cache := some questions })
  | Except.error e => (Except.error e, s')

/-! Embedding of components/lt_quiz/src/db/sqlite.rs (query construction). -/

/-- Embedding of the placeholders helper: n question marks joined by
commas. -/
def placeholders (n : Nat) : String :=
joinSep "," (List.replicate n "?")

/-- Embedding of the SQL query string constructed by Sqlite::find_questions:
the base select-join text, then a WHERE clause only when has_tags is
non-empty, then an AND clause only when no_tags is non-empty (each appended
with a trailing newline, as writeln does). -/
def find_questions_query (has_tags no_tags : List String) : String :=
let query := "SELECT q.id, q.description, q.answer, q.distractors\n        FROM questions AS q\n        INNER JOIN question_tags AS qt ON q.id = qt.question_id\n        INNER JOIN tags AS t ON qt.tag_id = t.id\n"
let query := if has_tags.isEmpty then query
  else query ++ "WHERE t.text IN (" ++ placeholders has_tags.length ++ ")" ++ "\n"
let query := if no_tags.isEmpty then query
  else query ++ "AND t.text NOT IN (" ++ placeholders no_tags.length ++ ")" ++ "\n"
query

/-! Helper lemmas about array_push and CommandBuilder. -/

theorem array_push_castSucc {T : Type} {N : Nat} (a : Fin N → T) (x : T) (i : Fin N) :
array_push a x i.castSucc = a i := by
have h : ((i.castSucc : Fin (N + 1)) : Nat) < N := by simp
simp only [array_push, dif_pos h]
rfl

theorem array_push_last {T : Type} {N : Nat} (a : Fin N → T) (x : T) :
array_push a x (Fin.last N) = x := by
simp [array_push]

theorem ofFn_array_push {T : Type} {N : Nat} (a : Fin N → T) (x : T) :
List.ofFn (array_push a x) = List.ofFn a ++ [x] := by
rw [List.ofFn_succ']
simp [array_push_castSucc, array_push_last]

theorem command_commands {T : Type} {N : Nat} (b : CommandBuilder T N) (cb : Builder T) :
(b.command cb).commands = array_push b.commands cb.command := rfl

theorem command_handlers {T : Type} {N : Nat} (b : CommandBuilder T N) (cb : Builder T) :
(b.command cb).handlers
  = array_push b.handlers (cb.command.phrase, adaptRoutine cb.handler b.state) := rfl

/-- Claim C1: array_push applied to an array of N elements and a new element
yields an array of exactly N + 1 elements whose first N slots hold the
original elements in their original order, whose slot N holds the new
element, and whose element list is exactly the original list followed by
the new element (so nothing is duplicated, dropped or leaked). -/
theorem C1_array_push_correct {T : Type} {N : Nat} (a : Fin N → T) (x : T) :
(List.ofFn (array_push a x)).length = N + 1 ∧
(∀ i : Fin N, array_push a x i.castSucc = a i) ∧
array_push a x (Fin.last N) = x ∧
List.ofFn (array_push a x) = List.ofFn a ++ [x] :=
⟨by simp, array_push_castSucc a x, array_push_last a x, ofFn_array_push a x⟩

/-- Claim C2: in every CommandBuilder the descriptor collection and the
handler collection both have length exactly N (the type-level size), and
the append operation takes a builder of size N to a builder of size exactly
N + 1, both collections included. -/
theorem C2_parallel_sizes {T : Type} {N : Nat} (b : CommandBuilder T N) (cb : Builder T) :
(List.ofFn b.commands).length = N ∧
(List.ofFn b.handlers).length = N ∧
(List.ofFn (b.command cb).commands).length = N + 1 ∧
(List.ofFn (b.command cb).handlers).length = N + 1 :=
⟨by simp, by simp, by simp, by simp⟩

/-! Lemmas about lastIdx and the name derivation. -/

theorem lastIdx_of_not_mem {c : Char} {l : List Char} (h : c ∉ l) :
lastIdx c l = none := by
induction l with
| nil => rfl
| cons x xs ih =>
  simp only [List.mem_cons, not_or] at h
  have hx : ¬ x = c := fun e => h.1 e.symm
  simp [lastIdx, ih h.2, hx]

theorem lastIdx_append_last {c : Char} {l2 : List Char} (h : c ∉ l2) (l1 : List Char) :
lastIdx c (l1 ++ c :: l2) = some l1.length := by
induction l1 with
| nil => simp [lastIdx, lastIdx_of_not_mem h]
| cons x xs ih => simp [lastIdx, ih]

theorem drop_append_succ {α : Type} (l1 l2 : List α) (c : α) :
(l1 ++ c :: l2).drop (l1.length + 1) = l2 := by
induction l1 with
| nil => simp
| cons x xs ih =>
  simp only [List.length_cons, List.cons_append, List.drop_succ_cons]
  exact ih

theorem deriveName_no_colon (n : String) (h : ':' ∉ n.data) :
deriveName n = String.mk (joinChar '.' (splitOnChar '_' n.data)) := by
simp [deriveName, lastIdx_of_not_mem h]

theorem deriveName_after_colon (p s : String) (h : ':' ∉ s.data) :
deriveName (p ++ ":" ++ s) = String.mk (joinChar '.' (splitOnChar '_' s.data)) := by
have hc : (":" : String).data = [':'] := rfl
have hdata : (p ++ ":" ++ s).data = p.data ++ ':' :: s.data := by
  simp [String.data_append, hc]
simp only [deriveName, hdata, lastIdx_append_last h, drop_append_succ]

/-- Claim C3: the derived phrase discards everything up to and including the
last colon of the identifier, splits the remainder on underscores and joins
the pieces with dots; in particular export maps to export, questions_list
to questions.list and the qualified crate::commands::questions_list to
questions.list. -/
theorem C3_name_derivation :
deriveName "export" = "export" ∧
deriveName "questions_list" = "questions.list" ∧
deriveName "crate::commands::questions_list" = "questions.list" ∧
(∀ p s : String, ':' ∉ s.data →
  deriveName (p ++ ":" ++ s) = String.mk (joinChar '.' (splitOnChar '_' s.data))) ∧
(∀ n : String, ':' ∉ n.data →
  deriveName n = String.mk (joinChar '.' (splitOnChar '_' n.data))) :=
⟨by decide, by decide, by decide,
 fun p s h => deriveName_after_colon p s h,
 fun n h => deriveName_no_colon n h⟩

/-- Witness for C3: the qualified-identifier case instantiated at the
concrete input crate::commands:questions_list split as prefix and suffix,
with the hypothesis discharged and the derived value evaluated. -/
theorem C3_name_derivation_witness :
(':' ∉ "questions_list".data) ∧
deriveName ("crate::commands" ++ ":" ++ "questions_list")
  = String.mk (joinChar '.' (splitOnChar '_' "questions_list".data)) ∧
String.mk (joinChar '.' (splitOnChar '_' "questions_list".data)) = "questions.list" :=
⟨by decide,
 C3_name_derivation.2.2.2.1 "crate::commands" "questions_list" (by decide),
 by decide⟩

/-! Apparatus for sequences of append operations. -/

/-- Size of the builder obtained from a builder of size N after appending
one command per list element. -/
def appendSize {α : Type} (N : Nat) : List α → Nat
| [] => N
| _ :: l => appendSize (N + 1) l

/-- Sequence of append operations: fold the given command builders into the
registry builder, one CommandBuilder.command call per list element. -/
def appendAll {T : Type} : {N : Nat} → CommandBuilder T N → (l : List (Builder T)) →
CommandBuilder T (appendSize N l)
| _, b, [] => b
| _, b, cb :: l => appendAll (b.command cb) l

theorem appendSize_eq {α : Type} (l : List α) : ∀ N : Nat, appendSize N l = N + l.length := by
induction l with
| nil => intro N; rfl
| cons x xs ih =>
  intro N
  show appendSize (N + 1) xs = N + (xs.length + 1)
  rw [ih (N + 1)]
  omega

theorem command_preserves_aligned {T : Type} {N : Nat} (b : CommandBuilder T N)
(cb : Builder T) (h : ∀ i, (b.handlers i).1 = (b.commands i).phrase) :
∀ i, ((b.command cb).handlers i).1 = ((b.command cb).commands i).phrase := by
intro i
rw [command_handlers, command_commands]
induction i using Fin.lastCases with
| last => rw [array_push_last, array_push_last]
| cast j => rw [array_push_castSucc, array_push_castSucc]; exact h j

theorem appendAll_aligned {T : Type} (l : List (Builder T)) :
∀ {N : Nat} (b : CommandBuilder T N),
  (∀ i, (b.handlers i).1 = (b.commands i).phrase) →
  ∀ i, ((appendAll b l).handlers i).1 = ((appendAll b l).commands i).phrase := by
induction l with
| nil => intro N b h i; exact h i
| cons cb l ih =>
  intro N b h i
  exact ih (b.command cb) (command_preserves_aligned b cb h) i

/-- Claim C4: any sequence of append operations starting from the empty
builder, followed by finalization, yields a table whose grammar and
executor both have exactly as many entries as appends were made, with the
i-th routine stored under the phrase of the i-th descriptor; in particular
zero appends followed by finalization yield an empty descriptor list and an
empty executor. -/
theorem C4_append_sequences {T : Type} (s : T) (l : List (Builder T)) :
((appendAll (CommandBuilder.with_state s) l).build).grammar.length = l.length ∧
((appendAll (CommandBuilder.with_state s) l).build).executor.length = l.length ∧
(∀ i, ((appendAll (CommandBuilder.with_state s) l).handlers i).1
    = ((appendAll (CommandBuilder.with_state s) l).commands i).phrase) ∧
(CommandBuilder.with_state s).build.grammar = [] ∧
(CommandBuilder.with_state s).build.executor = [] := by
refine ⟨?_, ?_, ?_, ?_, ?_⟩
· show (List.ofFn _).length = l.length
  rw [List.length_ofFn, appendSize_eq l 0]
  omega
· show (List.ofFn _).length = l.length
  rw [List.length_ofFn, appendSize_eq l 0]
  omega
· exact appendAll_aligned l (CommandBuilder.with_state s) (fun i => i.elim0)
· simp [CommandBuilder.build]
· simp [CommandBuilder.build]

/-- Claim C5: the routine stored by an append for the new command invokes
the domain handler exactly once per invocation, succeeds exactly when the
handler succeeds, and on a domain failure returns a BasicError carrying the
single debug-formatted diagnostic derived from the report and its context
chain. -/
theorem C5_handler_adapter {T : Type} {N : Nat} (b : CommandBuilder T N)
(cb : Builder T) (args : wca.Args) (props : wca.Props) :
(((b.command cb).handlers (Fin.last N)).2 args props).handlerInvocations = 1 ∧
((((b.command cb).handlers (Fin.last N)).2 args props).result = Except.ok ()
  ↔ cb.handler b.state args props = Except.ok ()) ∧
(∀ report : miette.Report, cb.handler b.state args props = Except.error report →
  (((b.command cb).handlers (Fin.last N)).2 args props).result
    = Except.error (wca.BasicError.new (miette.formatDebug report))) := by
rw [command_handlers, array_push_last]
refine ⟨rfl, ?_, ?_⟩
· show ((cb.handler b.state args props).mapError _ = Except.ok ()) ↔ _
  cases h : cb.handler b.state args props with
  | ok u => simp [Except.mapError]
  | error e => simp [Except.mapError]
· intro report hrep
  show (cb.handler b.state args props).mapError _ = _
  rw [hrep]
  rfl

/-- Witness for C5: a concrete failing handler wrapped through an append;
the adapter reports one invocation and the formatted diagnostic. -/
theorem C5_handler_adapter_witness :
((((CommandBuilder.with_state ()).command
    (Builder.new "f" (fun (_ : Unit) _ _ => Except.error ⟨"boom", ["ctx"]⟩))).handlers
    (Fin.last 0)).2 [] []).handlerInvocations = 1 ∧
((((CommandBuilder.with_state ()).command
    (Builder.new "f" (fun (_ : Unit) _ _ => Except.error ⟨"boom", ["ctx"]⟩))).handlers
    (Fin.last 0)).2 [] []).result
  = Except.error (wca.BasicError.new (miette.formatDebug ⟨"boom", ["ctx"]⟩)) :=
⟨(C5_handler_adapter (CommandBuilder.with_state ())
    (Builder.new "f" (fun (_ : Unit) _ _ => Except.error ⟨"boom", ["ctx"]⟩)) [] []).1,
 (C5_handler_adapter (CommandBuilder.with_state ())
    (Builder.new "f" (fun (_ : Unit) _ _ => Except.error ⟨"boom", ["ctx"]⟩)) [] []).2.2
    ⟨"boom", ["ctx"]⟩ rfl⟩

/-- Claim C6: declaring a positional argument or properties only mutates the
descriptor under construction (its phrase, its handler and the untouched
field are unchanged), and an append leaves every earlier descriptor and
handler of the registry builder unchanged, merely extending both
collections. -/
theorem C6_frame_effect {T : Type} {N : Nat} (bl : Builder T) (hint : String)
(tag : wca.Ty) (ps : List Property) (b : CommandBuilder T N) (cb : Builder T) :
(bl.arg hint tag).command.phrase = bl.command.phrase ∧
(bl.arg hint tag).command.properties = bl.command.properties ∧
(bl.arg hint tag).handler = bl.handler ∧
(bl.properties ps).command.phrase = bl.command.phrase ∧
(bl.properties ps).command.subjects = bl.command.subjects ∧
(bl.properties ps).handler = bl.handler ∧
(∀ i : Fin N, (b.command cb).commands i.castSucc = b.commands i) ∧
(∀ i : Fin N, (b.command cb).handlers i.castSucc = b.handlers i) := by
refine ⟨rfl, rfl, rfl, rfl, rfl, rfl, ?_, ?_⟩
· intro i
  rw [command_commands, array_push_castSucc]
· intro i
  rw [command_handlers, array_push_castSucc]

/-! Lemmas about the optionality of declared arguments and properties. -/

theorem foldl_arg_subjects {T : Type} (l : List (String × wca.Ty)) :
∀ bl : Builder T,
  (l.foldl (fun b a => b.arg a.1 a.2) bl).command.subjects
    = bl.command.subjects ++ l.map fun a => { hint := a.1, kind := a.2, optional := false } := by
induction l with
| nil => intro bl; simp
| cons a l ih =>
  intro bl
  rw [List.foldl_cons, ih (bl.arg a.1 a.2)]
  show (bl.command.subjects ++ [_]) ++ _ = _
  simp

theorem foldl_insertProp_mem (ps : List Property) :
∀ (m : List (String × wca.ValueDescription)) (e : String × wca.ValueDescription),
  e ∈ ps.foldl
    (fun m p => wca.insertProp m p.name { hint := p.hint, kind := p.tag, optional := true }) m →
  e.2.optional = true ∨ e ∈ m := by
induction ps with
| nil => intro m e he; exact Or.inr he
| cons p ps ih =>
  intro m e he
  rcases ih _ e he with hopt | hm
  · exact Or.inl hopt
  · rcases List.mem_append.1 hm with h1 | h2
    · exact Or.inr (List.mem_of_mem_filter h1)
    · rcases List.mem_singleton.1 h2 with rfl
      exact Or.inl rfl

/-- Claim C7: every positional argument declared through arg is appended as
required (optional is false) at the end of the subjects, so repeated arg
declarations keep their call order, and every property declared through
properties appears in the descriptor as optional (any entry of the
resulting property map is either optional or was already present). -/
theorem C7_required_optional {T : Type} (bl : Builder T) (hint : String)
(tag : wca.Ty) (ps : List Property) (l : List (String × wca.Ty)) :
(bl.arg hint tag).command.subjects
  = bl.command.subjects ++ [{ hint := hint, kind := tag, optional := false }] ∧
((l.foldl (fun b a => b.arg a.1 a.2) bl).command.subjects
  = bl.command.subjects ++ l.map fun a => { hint := a.1, kind := a.2, optional := false }) ∧
(∀ e ∈ (bl.properties ps).command.properties,
  e.2.optional = true ∨ e ∈ bl.command.properties) :=
⟨rfl, foldl_arg_subjects l bl, fun e he => foldl_insertProp_mem ps bl.command.properties e he⟩

/-- Witness for C7: a concrete builder with one declared property; the
membership hypothesis is discharged at the inserted entry, which is indeed
optional. -/
theorem C7_required_optional_witness :
(("x", ({ hint := "h", kind := wca.Ty.string, optional := true } : wca.ValueDescription))
  ∈ ((Builder.new "f" (fun (_ : Unit) _ _ => Except.ok ())).properties
      [{ name := "x", hint := "h", tag := wca.Ty.string }]).command.properties) ∧
((("x", ({ hint := "h", kind := wca.Ty.string, optional := true } : wca.ValueDescription)).2.optional = true)
  ∨ (("x", ({ hint := "h", kind := wca.Ty.string, optional := true } : wca.ValueDescription))
      ∈ (Builder.new "f" (fun (_ : Unit) _ _ => Except.ok ())).command.properties)) :=
⟨by decide,
 (C7_required_optional (Builder.new "f" (fun (_ : Unit) _ _ => Except.ok ())) "h"
    wca.Ty.string [{ name := "x", hint := "h", tag := wca.Ty.string }] []).2.2
    ("x", { hint := "h", kind := wca.Ty.string, optional := true }) (by decide)⟩

/-- Counterexample to claim C8: descriptor construction performs no
validation of property names, so a property whose name is the empty string
is accepted into the descriptor; the accepted entry refutes the universal
non-emptiness statement at this concrete input. -/
theorem C8_counterexample :
(("", ({ hint := "h", kind := wca.Ty.string, optional := true } : wca.ValueDescription))
  ∈ ((Builder.new "f" (fun (_ : Unit) _ _ => Except.ok ())).properties
      [{ name := "", hint := "h", tag := wca.Ty.string }]).command.properties) ∧
¬ (∀ e ∈ ((Builder.new "f" (fun (_ : Unit) _ _ => Except.ok ())).properties
      [{ name := "", hint := "h", tag := wca.Ty.string }]).command.properties,
    e.1 ≠ "") := by
constructor
· decide
· intro hall
  exact hall ("", { hint := "h", kind := wca.Ty.string, optional := true }) (by decide) rfl

/-- Claim C8 as amended: descriptor construction does not validate property
names; every given property, its name empty or not, is inserted into the
descriptor under exactly the name it carries, as an optional value
description. -/
theorem C8_amended {T : Type} (bl : Builder T) (p : Property) :
(p.name, ({ hint := p.hint, kind := p.tag, optional := true } : wca.ValueDescription))
  ∈ (bl.properties [p]).command.properties := by
show _ ∈ wca.insertProp bl.command.properties p.name _
exact List.mem_append_right _ (List.mem_singleton.2 rfl)

/-- Claim C9: once a call to State.questions has succeeded, the question
list is cached, and every subsequent call on the resulting state returns
that same list whatever its tag filters are, leaving the state (including
the count of database consultations) unchanged. -/
theorem C9_cache_stability {s : State} {h1 n1 h2 n2 : List String}
{qs : List Question} (hok : (State.questions s h1 n1).1 = Except.ok qs) :
State.questions (State.questions s h1 n1).2 h2 n2
  = (Except.ok qs, (State.questions s h1 n1).2) := by
cases hc : s.cache with
| some cached =>
  simp only [State.questions, hc] at hok ⊢
  cases hok
  rfl
| none =>
  cases hdb : s.db.find_questions h1 n1 with
  | ok found =>
    simp only [State.questions, hc, hdb] at hok ⊢
    cases hok
    rfl
  | error e =>
    rw [show (State.questions s h1 n1).1 = Except.error e by
      simp only [State.questions, hc, hdb]] at hok
    exact absurd hok (by simp)

/-- Witness for C9: a concrete state with an empty cache and a database
returning one question; the first call succeeds and the second call with
different filters returns the cached list with the state unchanged. -/
theorem C9_cache_stability_witness :
State.questions
  (State.questions
    { config := ()
      db := ⟨fun _ _ => Except.ok [{ id := some 1, description := "d", answer := "a",
                                     distractors := [], tags := [] }]⟩
      cache := none
      dbCalls := 0 } ["t"] []).2 [] ["u"]
  = (Except.ok [{ id := some 1, description := "d", answer := "a",
                  distractors := [], tags := [] }],
     (State.questions
       { config := ()
         db := ⟨fun _ _ => Except.ok [{ id := some 1, description := "d", answer := "a",
                                        distractors := [], tags := [] }]⟩
         cache := none
         dbCalls := 0 } ["t"] []).2) :=
C9_cache_stability rfl

/-! Lemmas about the characters occurring in joined placeholder lists. -/

theorem mem_joinSep (sep : String) (l : List String) (c : Char) :
c ∈ (joinSep sep l).data → c ∈ sep.data ∨ ∃ s ∈ l, c ∈ s.data := by
induction l with
| nil =>
  intro hc
  have hemp : ("" : String).data = [] := rfl
  rw [show joinSep sep [] = "" from rfl, hemp] at hc
  exact absurd hc (List.not_mem_nil c)
| cons s rest ih =>
  cases rest with
  | nil =>
    intro hc
    exact Or.inr ⟨s, List.mem_singleton.2 rfl, hc⟩
  | cons s2 r2 =>
    intro hc
    rw [show joinSep sep (s :: s2 :: r2) = s ++ sep ++ joinSep sep (s2 :: r2) from rfl,
      String.data_append, String.data_append] at hc
    rcases List.mem_append.1 hc with h12 | h3
    · rcases List.mem_append.1 h12 with h1 | h2
      · exact Or.inr ⟨s, List.mem_cons_self s _, h1⟩
      · exact Or.inl h2
    · rcases ih h3 with hsep | ⟨t, ht, hct⟩
      · exact Or.inl hsep
      · exact Or.inr ⟨t, List.mem_cons_of_mem s ht, hct⟩

theorem mem_placeholders {n : Nat} {c : Char} (hc : c ∈ (placeholders n).data) :
c = '?' ∨ c = ',' := by
rcases mem_joinSep "," (List.replicate n "?") c hc with hsep | ⟨s, hs, hcs⟩
· right
  rw [show ("," : String).data = [','] from rfl] at hsep
  exact List.mem_singleton.1 hsep
· left
  rw [List.eq_of_mem_replicate hs,
    show ("?" : String).data = ['?'] from rfl] at hcs
  exact List.mem_singleton.1 hcs

/-- String append is associative (at the level of the underlying character
lists). -/
theorem string_append_assoc (a b c : String) : a ++ b ++ c = a ++ (b ++ c) := by
apply String.ext
simp [String.data_append, List.append_assoc]

/-- Claim C10: when has_tags is empty and no_tags is non-empty, the SQL text
constructed by find_questions contains the AND t.text NOT IN clause but no
WHERE keyword at all, so the statement handed to the database is malformed
(the database collaborator rejects it and the call errors instead of
returning the filtered questions). -/
theorem C10_malformed_query (no_tags : List String) (hne : no_tags ≠ []) :
("AND t.text NOT IN".data <:+: (find_questions_query [] no_tags).data) ∧
¬ ("WHERE".data <:+: (find_questions_query [] no_tags).data) := by
have hni : no_tags.isEmpty = false := by
  cases no_tags with
  | nil => exact absurd rfl hne
  | cons a l => rfl
have hq : find_questions_query [] no_tags
    = "SELECT q.id, q.description, q.answer, q.distractors\n        FROM questions AS q\n        INNER JOIN question_tags AS qt ON q.id = qt.question_id\n        INNER JOIN tags AS t ON qt.tag_id = t.id\n"
      ++ "AND t.text NOT IN (" ++ placeholders no_tags.length ++ ")" ++ "\n" := by
  simp [find_questions_query, hni]
have hA : ("AND t.text NOT IN (" : String) = "AND t.text NOT IN" ++ " (" := by decide
constructor
· have hdata : (find_questions_query [] no_tags).data
      = ("SELECT q.id, q.description, q.answer, q.distractors\n        FROM questions AS q\n        INNER JOIN question_tags AS qt ON q.id = qt.question_id\n        INNER JOIN tags AS t ON qt.tag_id = t.id\n" : String).data
          ++ "AND t.text NOT IN".data
        ++ (" (" ++ placeholders no_tags.length ++ ")" ++ "\n").data := by
    rw [hq, hA]
    simp [String.data_append, List.append_assoc]
  exact ⟨_, _, hdata.symm⟩
· intro hinf
  obtain ⟨u, v, huv⟩ := hinf
  have hW : 'W' ∈ (find_questions_query [] no_tags).data := by
    rw [← huv]
    exact List.mem_append.2 (Or.inl (List.mem_append.2 (Or.inr (by decide))))
  rw [hq] at hW
  simp only [String.data_append] at hW
  rcases List.mem_append.1 hW with h1 | h2
  · rcases List.mem_append.1 h1 with h3 | h4
    · rcases List.mem_append.1 h3 with h5 | h6
      · rcases List.mem_append.1 h5 with h7 | h8
        · exact absurd h7 (by decide)
        · exact absurd h8 (by decide)
      · rcases mem_placeholders h6 with h | h
        · exact absurd h (by decide)
        · exact absurd h (by decide)
    · exact absurd h4 (by decide)
  · exact absurd h2 (by decide)

/-- Witness for C10: the concrete call with no required tags and one
excluded tag; the hypothesis is discharged and both clause facts follow. -/
theorem C10_malformed_query_witness :
((["a"] : List String) ≠ []) ∧
("AND t.text NOT IN".data <:+: (find_questions_query [] ["a"]).data) ∧
¬ ("WHERE".data <:+: (find_questions_query [] ["a"]).data) :=
⟨by decide,
 (C10_malformed_query ["a"] (by decide)).1,
 (C10_malformed_query ["a"] (by decide)).2⟩
